import Mathlib

/-!
Verification of the FAT12 read-only filesystem driver of the stage-2
bootloader (src/bootloader/stage-2/src/fs/).  The Rust code is shallowly
embedded: machine integers become Nat with explicit `% 2^16` wrapping where
u16 overflow can occur, buffers become functions from indices to bytes,
panics become an explicit `panic` outcome, and the unbounded `loop`s of the
source become fuel-indexed recursions (`stuck` marks fuel exhaustion, i.e.
divergence within the given fuel).  The physical disk is modelled as a pure
total function from absolute byte address (sector lba * 512 + offset) to
byte value; every BIOS sector read is assumed to succeed and is logged in an
instrumentation trace so that theorems can speak about which reads were
issued.
-/

/-- Outcome of running a piece of driver code: normal return, a Rust
panic (fatal halt), or fuel exhaustion of the embedding. -/
inductive PRes (α : Type) where
  | ok : α → PRes α
  | panic : PRes α
  | stuck : PRes α
deriving Repr

/-- Destination buffer of a logged `read_disk` call: the FAT cache, the root
directory cache, or a `File` content buffer. -/
inductive Dest where
  | fat : Dest
  | root : Dest
  | file : Dest
deriving Repr, DecidableEq

/-- One logged `read_disk` call: destination, starting sector (lba), and
sector count. -/
structure Rd where
  dest : Dest
  lba : Nat
  count : Nat
deriving Repr, DecidableEq

/-- Wrapping 16-bit addition (Rust u16 `+` in release mode). -/
def add16 (a b : Nat) : Nat := (a + b) % 65536

/-- Wrapping 16-bit subtraction (Rust u16 `-` in release mode). -/
def sub16 (a b : Nat) : Nat := (a % 65536 + (65536 - b % 65536)) % 65536

/-- Rust u8::to_ascii_uppercase. -/
def toUpper (c : Nat) : Nat := if 97 ≤ c ∧ c ≤ 122 then c - 32 else c

/-- DirectoryEntry (fs/directory.rs): the 32-byte FAT12 directory record.
The 11-byte name is held as a list of byte values. -/
structure DirectoryEntry where
  name : List Nat
  attributes : Nat
  reserved : Nat
  creation_time_tenths : Nat
  creation_time : Nat
  creation_date : Nat
  last_access_date : Nat
  upper_first_cluster : Nat
  last_change_time : Nat
  last_change_date : Nat
  lower_first_cluster : Nat
  file_size : Nat
deriving Repr, DecidableEq

/-- Modelled from the spec: DirectoryEntry::is_directory is called by
FS::get_entry_from_absolute_path (fs/mod.rs line 188) but its body is not
present under src/; per the spec (section 4.5 and the attribute table in
fs/directory.rs), an entry is a directory when the DIRECTORY bit 0x10 of the
attribute bitmask is set. -/
def DirectoryEntry.is_directory (e : DirectoryEntry) : Bool :=
  e.attributes &&& 16 ≠ 0

/-- Little-endian u16 at a byte offset of a byte source. -/
def u16At (b : Nat → Nat) (o : Nat) : Nat := b o + 256 * b (o + 1)

/-- Little-endian u32 at a byte offset of a byte source. -/
def u32At (b : Nat → Nat) (o : Nat) : Nat :=
  b o + 256 * b (o + 1) + 65536 * b (o + 2) + 16777216 * b (o + 3)

/-- Typed view of the 32 bytes starting at `base` of byte source `b` as a
repr(C, packed) DirectoryEntry (the layout of fs/directory.rs). -/
def entryAt (b : Nat → Nat) (base : Nat) : DirectoryEntry where
  name := (List.range 11).map fun i => b (base + i)
  attributes := b (base + 11)
  reserved := b (base + 12)
  creation_time_tenths := b (base + 13)
  creation_time := u16At b (base + 14)
  creation_date := u16At b (base + 16)
  last_access_date := u16At b (base + 18)
  upper_first_cluster := u16At b (base + 20)
  last_change_time := u16At b (base + 22)
  last_change_date := u16At b (base + 24)
  lower_first_cluster := u16At b (base + 26)
  file_size := u32At b (base + 28)

/-- BootSector (fs/bootsector.rs): only the BIOS-parameter-block fields that
the driver logic ever reads are carried; the remaining header bytes and the
boot code padding are never consulted by the embedded operations. -/
structure BootSector where
  sectors_per_cluster : Nat
  reserved_sectors : Nat
  fat_count : Nat
  root_entries : Nat
  sectors_per_fat : Nat
deriving Repr, DecidableEq

/-- BootSector::get_fat_offset. -/
def BootSector.get_fat_offset (b : BootSector) : Nat := b.reserved_sectors

/-- BootSector::get_fat_size. -/
def BootSector.get_fat_size (b : BootSector) : Nat := b.sectors_per_fat

/-- BootSector::get_root_offset: fat_offset + fat_size * fat_count in
wrapping u16 arithmetic. -/
def BootSector.get_root_offset (b : BootSector) : Nat :=
  (b.get_fat_offset + b.get_fat_size * b.fat_count) % 65536

/-- BootSector::get_root_size: root_entries / 16. -/
def BootSector.get_root_size (b : BootSector) : Nat := b.root_entries / 16

/-- BootSector::get_cluster_region_offset. -/
def BootSector.get_cluster_region_offset (b : BootSector) : Nat :=
  (b.get_root_offset + b.get_root_size) % 65536

/-- BootSector::get_cluster_size. -/
def BootSector.get_cluster_size (b : BootSector) : Nat := b.sectors_per_cluster

/-- BootSector::get_cluster_offset: cluster_region_offset +
cluster_size * (cluster - 2) in wrapping u16 arithmetic (the subtraction
cluster - 2 wraps for cluster values 0 and 1). -/
def BootSector.get_cluster_offset (b : BootSector) (cluster : Nat) : Nat :=
  (b.get_cluster_region_offset + b.get_cluster_size * sub16 cluster 2) % 65536

/-- File (fs/file.rs): metadata copy plus the streaming-read cursor and the
content buffer.  The `finished` field is assigned by FS::file_read
(fs/mod.rs lines 336 and 392) but is not declared in the file.rs snapshot;
it is modelled from the spec (section 3, File record: "finished: whether the
chain has been fully consumed"). -/
structure File where
  metadata : DirectoryEntry
  current_cluster : Nat
  current_cluster_read_sectors : Nat
  finished : Bool
  buffer : Nat → Nat

/-- File::SECTOR_SIZE. -/
def File.SECTOR_SIZE : Nat := 512

/-- Modelled from the spec: fs/mod.rs refers to File::SECTION_SIZE, which is
not declared in the file.rs snapshot (file.rs declares SECTOR_SIZE); per the
spec a section/sector is the 512-byte minimum readable disk unit. -/
def File.SECTION_SIZE : Nat := 512

/-- File::BUFFER_SIZE (file buffer capacity in sectors). -/
def File.BUFFER_SIZE : Nat := 1

/-- File::new: fresh cursor over the entry's cluster chain with a zeroed
buffer.  The `finished` initial value is modelled from the spec's fresh
state (finished = false). -/
def File.new (metadata : DirectoryEntry) : File where
  metadata := metadata
  current_cluster := metadata.lower_first_cluster
  current_cluster_read_sectors := 0
  finished := false
  buffer := fun _ => 0

/-- File::reset (fs/file.rs lines 45-48): restores current_cluster and
current_cluster_read_sectors to their just-initialized values.  Note that
the source resets only these two fields. -/
def File.reset (file : File) : File :=
  { file with
    current_cluster := file.metadata.lower_first_cluster
    current_cluster_read_sectors := 0 }

/-- File::is_fully_read. -/
def File.is_fully_read (file : File) : Bool := 4088 ≤ file.current_cluster

/-- FS (fs/mod.rs): the driver state.  Physical drive geometry fields are
dropped (disk I/O is modelled as always succeeding); `reads` is the
instrumentation trace of issued read_disk calls, most recent first. -/
structure FS where
  boot_sector : BootSector
  fat_buffer : Nat → Nat
  root_buffer : Nat → DirectoryEntry
  fat_sector : Nat
  root_sector : Nat
  reads : List Rd

/-- Appends a read_disk call to the instrumentation trace. -/
def logRead (fs : FS) (d : Dest) (lba count : Nat) : FS :=
  { fs with reads := ⟨d, lba, count⟩ :: fs.reads }

/-- Total sector count of the logged reads whose destination is a File
content buffer (the bytes delivered to callers of file_read). -/
def sumFile : List Rd → Nat
  | [] => 0
  | r :: rs => (if r.dest = Dest.file then r.count else 0) + sumFile rs

/-- Models `[u8; 512]::get`: some byte for an index below 512. -/
def bufGet512 (buf : Nat → Nat) (k : Nat) : Option Nat :=
  if k < 512 then some (buf k) else none

/-- Models `[DirectoryEntry; 16]::get` on the root directory buffer. -/
def bufGetRoot (buf : Nat → DirectoryEntry) (k : Nat) : Option DirectoryEntry :=
  if k < 16 then some (buf k) else none

/-- The lba computed by FS::fat_buffer_read for a FAT-region sector number
(1-indexed): get_fat_offset() + sector - 1 in wrapping u16 arithmetic, the
sector number being truncated from usize to u16. -/
def fatLba (b : BootSector) (s : Nat) : Nat :=
  sub16 (add16 b.get_fat_offset (s % 65536)) 1

/-- FS::fat_buffer_read (fs/mod.rs lines 127-148): single-sector
read-through cache over the FAT region.  On a window miss the owning sector
(entry_index / 512 + 1) is loaded from disk into the cache buffer and
recorded; the byte at entry_index % 512 of the buffer is returned. -/
def fat_buffer_read (disk : Nat → Nat) (fs : FS) (entry_index : Nat) :
    FS × Option Nat :=
  let max_entry := fs.fat_sector * 512
  let min_entry := max_entry - (512 - 1)
  let fs1 :=
    if entry_index + 1 < min_entry ∨ max_entry < entry_index + 1 then
      let s := entry_index / 512 + 1
      let lba := fatLba fs.boot_sector s
      let fs1 := logRead fs Dest.fat lba 1
      { fs1 with fat_sector := s, fat_buffer := fun j => disk (lba * 512 + j) }
    else fs
  (fs1, bufGet512 fs1.fat_buffer (entry_index % 512))

/-- Combination step of FS::fat_entry_read (fs/mod.rs lines 104-119): mask
the two raw FAT bytes of the 12-bit entry and combine them.  The shift c is
0 for even cluster numbers and 4 for odd ones; the u8 mask 0xFF << c is
truncated to 8 bits as in Rust. -/
def codecCore (cluster b1 b2 : Nat) : Nat :=
  let c := cluster * 3 % 2 * 4
  let lsb := b1 &&& ((255 <<< c) % 256)
  let msb := b2 &&& (255 >>> (4 - c))
  let word := msb * 256 + lsb
  (word >>> c) &&& 4095

/-- FS::fat_entry_read (fs/mod.rs lines 94-120): reads the 12-bit FAT entry
of a cluster through the FAT cache.  The guard compares the byte index
against the 512-byte cache buffer length and panics when it is exceeded. -/
def fat_entry_read (disk : Nat → Nat) (fs : FS) (cluster : Nat) :
    PRes (FS × Option Nat) :=
  let i := cluster * 3 / 2
  if 512 ≤ i then PRes.panic
  else
    match fat_buffer_read disk fs i with
    | (fs1, none) => PRes.ok (fs1, none)
    | (fs1, some b1) =>
      match fat_buffer_read disk fs1 (i + 1) with
      | (fs2, none) => PRes.ok (fs2, none)
      | (fs2, some b2) => PRes.ok (fs2, some (codecCore cluster b1 b2))

/-- Raw FAT byte at FAT-region byte index i, as fetched by the cache: byte
i % 512 of the sector that fat_buffer_read would load for index i. -/
def fatByte (disk : Nat → Nat) (b : BootSector) (i : Nat) : Nat :=
  disk (fatLba b (i / 512 + 1) * 512 + i % 512)

/-- The 12-bit FAT entry value of a cluster as stored on disk (the pure
decode that fat_entry_read returns when its bounds guard passes). -/
def fatEntryAt (disk : Nat → Nat) (b : BootSector) (cluster : Nat) : Nat :=
  codecCore cluster (fatByte disk b (cluster * 3 / 2))
    (fatByte disk b (cluster * 3 / 2 + 1))

/-- Pure form of the fat_entry_read codec over an arbitrary byte region:
byte index cluster * 3 / 2, nibble shift, mask and combine. -/
def fatDecodePure (buf : Nat → Nat) (cluster : Nat) : Nat :=
  codecCore cluster (buf (cluster * 3 / 2)) (buf (cluster * 3 / 2 + 1))

/-- FAT12-style packing of two 12-bit values a and b into the 3 bytes at
byte indices 3k, 3k+1, 3k+2: byte0 = low 8 bits of a, byte1 = high 4 bits
of a ored with the low 4 bits of b shifted left 4, byte2 = high 8 bits
of b.  All other byte indices read 0. -/
def packBytes (a b k : Nat) : Nat → Nat := fun j =>
  if j = 3 * k then a % 256
  else if j = 3 * k + 1 then (a >>> 8) ||| ((b &&& 15) <<< 4)
  else if j = 3 * k + 2 then b >>> 4
  else 0

/-- Invariant of the FAT cache: either no FAT sector has been loaded yet
(fat_sector = 0), or the cache buffer holds exactly the bytes of the
resident sector as fat_buffer_read loads them. -/
def FatCacheOk (disk : Nat → Nat) (fs : FS) : Prop :=
  fs.fat_sector = 0 ∨
    ∀ j, j < 512 →
      fs.fat_buffer j = disk (fatLba fs.boot_sector fs.fat_sector * 512 + j)

/-- Overwrites bytes [addrOff, addrOff + count * 512) of a File buffer with
the disk bytes starting at sector lba (the effect of the read_disk call
issued by FS::file_read inside its loop). -/
def copyIn (disk : Nat → Nat) (buf : Nat → Nat) (addrOff lba count : Nat) :
    Nat → Nat := fun j =>
  if addrOff ≤ j ∧ j < addrOff + count * 512 then disk (lba * 512 + (j - addrOff))
  else buf j

/-- Loop of FS::file_read (fs/mod.rs lines 352-402), fuel-indexed.  Each
iteration reads min(cluster_size - read_sectors, buffer_capacity) sectors of
the current cluster into the file buffer, then either advances along the FAT
chain, finishes (end-of-chain sentinel >= 0xFF8, cursor reset to the entry's
first cluster), or saves the cursor when the buffer is full. -/
def fileReadLoop (disk : Nat → Nat) :
    Nat → FS → File → Nat → Nat → Nat → Nat → PRes (FS × File)
  | 0, _, _, _, _, _, _ => PRes.stuck
  | fuel + 1, fs, file, cluster, rs, cap, addrOff =>
    let cs := fs.boot_sector.get_cluster_size
    let lba := add16 (fs.boot_sector.get_cluster_offset cluster) rs
    let count := min (sub16 cs rs) cap
    let fs1 := logRead fs Dest.file lba count
    let file1 := { file with buffer := copyIn disk file.buffer addrOff lba count }
    let cap1 := cap - count
    let rs1 := add16 rs count
    let addrOff1 := addrOff + count * 512
    let next : PRes (FS × Nat × Nat) :=
      if sub16 cs rs1 = 0 then
        match fat_entry_read disk fs1 cluster with
        | PRes.panic => PRes.panic
        | PRes.stuck => PRes.stuck
        | PRes.ok (fs2, none) => PRes.ok (fs2, 4088, 0)
        | PRes.ok (fs2, some c2) => PRes.ok (fs2, c2, 0)
      else PRes.ok (fs1, cluster, rs1)
    match next with
    | PRes.panic => PRes.panic
    | PRes.stuck => PRes.stuck
    | PRes.ok (fs2, cluster2, rs2) =>
      if 4088 ≤ cluster2 then
        PRes.ok (fs2, { file1 with
          current_cluster := file1.metadata.lower_first_cluster
          current_cluster_read_sectors := 0
          finished := true })
      else if cap1 = 0 then
        PRes.ok (fs2, { file1 with
          current_cluster := cluster2
          current_cluster_read_sectors := rs2 })
      else fileReadLoop disk fuel fs2 file1 cluster2 rs2 cap1 addrOff1

/-- FS::file_read (fs/mod.rs lines 333-403): clears `finished`, then runs
the cluster-chain reading loop over the File's one-sector buffer
(buffer_capacity = SECTOR_SIZE * BUFFER_SIZE / SECTION_SIZE = 1).  Fuel 3
covers every terminating run of the loop at capacity 1: an iteration either
consumes the remaining capacity and exits, or (only when the current cluster
was already fully consumed) advances the chain and loops at most once more;
only a zero cluster size diverges, which fuel exhaustion models as stuck. -/
def file_read (disk : Nat → Nat) (fs : FS) (file : File) : PRes (FS × File) :=
  let file1 := { file with finished := false }
  fileReadLoop disk 3 fs file1 file1.current_cluster
    file1.current_cluster_read_sectors
    (File.SECTOR_SIZE * File.BUFFER_SIZE / File.SECTION_SIZE) 0

/-- Iterates file_read n times, propagating a panic (abort of the boot
sequence) or fuel exhaustion. -/
def iterRead (disk : Nat → Nat) : Nat → FS → File → PRes (FS × File)
  | 0, fs, file => PRes.ok (fs, file)
  | n + 1, fs, file =>
    match file_read disk fs file with
    | PRes.ok (fs1, file1) => iterRead disk n fs1 file1
    | PRes.panic => PRes.panic
    | PRes.stuck => PRes.stuck

set_option maxRecDepth 8192

theorem and_mod_256 (x : Nat) : x &&& 255 = x % 256 := by
  simpa using Nat.and_pow_two_sub_one_eq_mod x 8

theorem and_mod_16 (x : Nat) : x &&& 15 = x % 16 := by
  simpa using Nat.and_pow_two_sub_one_eq_mod x 4

theorem and_mod_4096 (x : Nat) : x &&& 4095 = x % 4096 := by
  simpa using Nat.and_pow_two_sub_one_eq_mod x 12

theorem and240_div (x : Nat) (h : x < 256) : x &&& 240 = x / 16 * 16 := by
  have h2 : ∀ y, y < 256 → y &&& 240 = y / 16 * 16 := by decide
  exact h2 x h

theorem or_shift4 (u v : Nat) (hu : u < 16) (hv : v < 16) :
    u ||| (v <<< 4) = u + 16 * v := by
  have h2 : ∀ x, x < 16 → ∀ y, y < 16 → x ||| (y <<< 4) = x + 16 * y := by decide
  exact h2 u hu v hv

theorem codec_even (a b k : Nat) (ha : a < 4096) (_hb : b < 4096) :
    fatDecodePure (packBytes a b k) (2 * k) = a := by
  have hi : 2 * k * 3 / 2 = 3 * k := by omega
  have hc : 2 * k * 3 % 2 * 4 = 0 := by omega
  have e1 : packBytes a b k (3 * k) = a % 256 := by
    unfold packBytes
    rw [if_pos rfl]
  have e2 : packBytes a b k (3 * k + 1) = (a >>> 8) ||| ((b &&& 15) <<< 4) := by
    unfold packBytes
    rw [if_neg (by omega), if_pos rfl]
  have hB1 : (a >>> 8) ||| ((b &&& 15) <<< 4) = a / 256 + 16 * (b % 16) := by
    rw [Nat.shiftRight_eq_div_pow, and_mod_16]
    exact or_shift4 _ _ (by omega) (by omega)
  unfold fatDecodePure codecCore
  rw [hi, hc, e1, e2, hB1]
  show ((((a / 256 + 16 * (b % 16)) &&& (255 >>> 4)) * 256 +
      (a % 256 &&& ((255 <<< 0) % 256))) >>> 0) &&& 4095 = a
  have h15 : (255 : Nat) >>> 4 = 15 := by decide
  have h255 : ((255 : Nat) <<< 0) % 256 = 255 := by decide
  rw [h15, h255, and_mod_16, and_mod_256, Nat.shiftRight_zero, and_mod_4096]
  omega

theorem codec_odd (a b k : Nat) (ha : a < 4096) (hb : b < 4096) :
    fatDecodePure (packBytes a b k) (2 * k + 1) = b := by
  have hi : (2 * k + 1) * 3 / 2 = 3 * k + 1 := by omega
  have hc : (2 * k + 1) * 3 % 2 * 4 = 4 := by omega
  have e2 : packBytes a b k (3 * k + 1) = (a >>> 8) ||| ((b &&& 15) <<< 4) := by
    unfold packBytes
    rw [if_neg (by omega), if_pos rfl]
  have e3 : packBytes a b k (3 * k + 1 + 1) = b >>> 4 := by
    unfold packBytes
    rw [if_neg (by omega), if_neg (by omega), if_pos (by omega)]
  have hB1 : (a >>> 8) ||| ((b &&& 15) <<< 4) = a / 256 + 16 * (b % 16) := by
    rw [Nat.shiftRight_eq_div_pow, and_mod_16]
    exact or_shift4 _ _ (by omega) (by omega)
  unfold fatDecodePure codecCore
  rw [hi, hc, e2, e3, hB1]
  show ((((b >>> 4) &&& (255 >>> (4 - 4))) * 256 +
      ((a / 256 + 16 * (b % 16)) &&& ((255 <<< 4) % 256))) >>> 4) &&& 4095 = b
  have h240 : ((255 : Nat) <<< 4) % 256 = 240 := by decide
  have h255 : (255 : Nat) >>> (4 - 4) = 255 := by decide
  rw [h240, h255, Nat.shiftRight_eq_div_pow b, and_mod_256,
    and240_div _ (by omega), Nat.shiftRight_eq_div_pow, and_mod_4096]
  have hd : (2 : Nat) ^ 4 = 16 := by norm_num
  rw [hd]
  omega

/-- C3: for any two 12-bit values a, b in [0, 0xFFF], packing them
FAT12-style into 3 consecutive bytes (byte0 = low 8 bits of a; byte1 = high
4 bits of a ored with the low 4 bits of b shifted left 4; byte2 = high 8
bits of b) and then decoding via the codec formula of fat_entry_read at even
cluster index 2k (byte index 3k, shift 0) and odd cluster index 2k+1 (byte
index 3k+1, shift 4) returns exactly a and b respectively. -/
theorem c3_fat12_roundtrip (a b k : Nat) (ha : a < 4096) (hb : b < 4096) :
    fatDecodePure (packBytes a b k) (2 * k) = a ∧
    fatDecodePure (packBytes a b k) (2 * k + 1) = b :=
  ⟨codec_even a b k ha hb, codec_odd a b k ha hb⟩


/-- Witness for C3 at a = 0xABC, b = 0x123, k = 1. -/
theorem c3_fat12_roundtrip_witness :
    (2748 < 4096 ∧ 291 < 4096) ∧
    fatDecodePure (packBytes 2748 291 1) (2 * 1) = 2748 ∧
    fatDecodePure (packBytes 2748 291 1) (2 * 1 + 1) = 291 :=
  ⟨⟨by decide, by decide⟩, c3_fat12_roundtrip 2748 291 1 (by decide) (by decide)⟩

/-- All-zero disk used for closed evaluations. -/
def diskZero : Nat → Nat := fun _ => 0

/-- All-zero directory entry. -/
def entryZero : DirectoryEntry :=
  ⟨List.replicate 11 0, 0, 0, 0, 0, 0, 0, 0, 0, 0, 0, 0⟩

/-- Driver state just after FS::new: caches empty (sector registers 0),
no reads logged. -/
def fsInit (b : BootSector) : FS :=
  ⟨b, fun _ => 0, fun _ => entryZero, 0, 0, []⟩

/-- Boot sector of a small FAT12 disk with 2 sectors per cluster, 1 reserved
sector, 1 FAT copy of 2 sectors, and 16 root entries. -/
def bootC2 : BootSector := ⟨2, 1, 1, 16, 2⟩

/-- C2: fat_entry_read panics for cluster 342 although its FAT byte index
513 (and 514 for the second byte) lies inside the on-disk FAT region of a
2-sector FAT: the bounds guard compares the byte index against the 512-byte
cache buffer length instead of the FAT size, so the cache logic for sectors
beyond the first is unreachable from fat_entry_read. -/
theorem c2_fat_guard_panics :
    fat_entry_read diskZero (fsInit bootC2) 342 = PRes.panic ∧
    342 * 3 / 2 + 1 < bootC2.sectors_per_fat * 512 :=
  ⟨rfl, by decide⟩

/-- File in the finished cursor state of the spec's state machine:
current_cluster back at the first cluster, no sectors consumed, finished
flag set. -/
def fileFinished : File :=
  { metadata := entryZero
    current_cluster := 0
    current_cluster_read_sectors := 0
    finished := true
    buffer := fun _ => 0 }

/-- Counterexample for C8: reset() does not touch the finished flag, so a
File in the finished state keeps finished = true after reset(), contradicting
the claimed fresh state (finished = false). -/
theorem c8_reset_keeps_finished :
    (File.reset fileFinished).finished = true ∧ fileFinished.finished = true :=
  ⟨rfl, rfl⟩

/-- C8 (amended): reset() restores current_cluster to the metadata's first
cluster and current_cluster_read_sectors to 0, but leaves the finished flag
unchanged; the result is the fresh state exactly when finished was already
false (file_read itself clears finished on entry). -/
theorem c8_reset_amended (file : File) :
    (File.reset file).current_cluster = file.metadata.lower_first_cluster ∧
    (File.reset file).current_cluster_read_sectors = 0 ∧
    (File.reset file).finished = file.finished :=
  ⟨rfl, rfl, rfl⟩

theorem sub16_small (a b : Nat) (hb : b ≤ a) (ha : a < 65536) :
    sub16 a b = a - b := by
  unfold sub16
  omega

theorem add16_small (a b : Nat) (h : a + b < 65536) : add16 a b = a + b := by
  unfold add16
  omega

theorem fileReadLoop_succ (disk : Nat → Nat) (fuel : Nat) (fs : FS)
    (file : File) (cluster rs cap addrOff : Nat) :
    fileReadLoop disk (fuel + 1) fs file cluster rs cap addrOff =
    (let cs := fs.boot_sector.get_cluster_size
     let lba := add16 (fs.boot_sector.get_cluster_offset cluster) rs
     let count := min (sub16 cs rs) cap
     let fs1 := logRead fs Dest.file lba count
     let file1 := { file with buffer := copyIn disk file.buffer addrOff lba count }
     let cap1 := cap - count
     let rs1 := add16 rs count
     let addrOff1 := addrOff + count * 512
     let next : PRes (FS × Nat × Nat) :=
       if sub16 cs rs1 = 0 then
         match fat_entry_read disk fs1 cluster with
         | PRes.panic => PRes.panic
         | PRes.stuck => PRes.stuck
         | PRes.ok (fs2, none) => PRes.ok (fs2, 4088, 0)
         | PRes.ok (fs2, some c2) => PRes.ok (fs2, c2, 0)
       else PRes.ok (fs1, cluster, rs1)
     match next with
     | PRes.panic => PRes.panic
     | PRes.stuck => PRes.stuck
     | PRes.ok (fs2, cluster2, rs2) =>
       if 4088 ≤ cluster2 then
         PRes.ok (fs2, { file1 with
           current_cluster := file1.metadata.lower_first_cluster
           current_cluster_read_sectors := 0
           finished := true })
       else if cap1 = 0 then
         PRes.ok (fs2, { file1 with
           current_cluster := cluster2
           current_cluster_read_sectors := rs2 })
       else fileReadLoop disk fuel fs2 file1 cluster2 rs2 cap1 addrOff1) := rfl

/-- State evolution caused by FAT-cache activity only: boot sector and root
cache untouched, and any new logged reads target the FAT cache. -/
def FatStep (fs fs2 : FS) : Prop :=
  fs2.boot_sector = fs.boot_sector ∧
  fs2.root_buffer = fs.root_buffer ∧
  fs2.root_sector = fs.root_sector ∧
  ∃ pre, fs2.reads = pre ++ fs.reads ∧ ∀ x ∈ pre, x.dest = Dest.fat

theorem FatStep.refl (fs : FS) : FatStep fs fs :=
  ⟨rfl, rfl, rfl, [], rfl, by simp⟩

theorem FatStep.trans {fs fs2 fs3 : FS} (h1 : FatStep fs fs2)
    (h2 : FatStep fs2 fs3) : FatStep fs fs3 := by
  obtain ⟨b1, r1, s1, p1, e1, a1⟩ := h1
  obtain ⟨b2, r2, s2, p2, e2, a2⟩ := h2
  refine ⟨b2.trans b1, r2.trans r1, s2.trans s1, p2 ++ p1, ?_, ?_⟩
  · rw [e2, e1, List.append_assoc]
  · intro x hx
    rcases List.mem_append.mp hx with h | h
    · exact a2 x h
    · exact a1 x h

theorem sumFile_append (l1 l2 : List Rd) :
    sumFile (l1 ++ l2) = sumFile l1 + sumFile l2 := by
  induction l1 with
  | nil => simp [sumFile]
  | cons r rs ih => simp [sumFile, ih]; omega

theorem sumFile_all_fat (l : List Rd) (h : ∀ x ∈ l, x.dest = Dest.fat) :
    sumFile l = 0 := by
  induction l with
  | nil => rfl
  | cons r rs ih =>
    have hr := h r (by simp)
    simp [sumFile, hr]
    exact ih fun x hx => h x (by simp [hx])

theorem FatStep.sumFile_eq {fs fs2 : FS} (h : FatStep fs fs2) :
    sumFile fs2.reads = sumFile fs.reads := by
  obtain ⟨_, _, _, pre, e, a⟩ := h
  rw [e, sumFile_append, sumFile_all_fat pre a]
  omega

theorem fat_buffer_read_ok (disk : Nat → Nat) (fs : FS) (i : Nat)
    (hcache : FatCacheOk disk fs) :
    ∃ fs2, fat_buffer_read disk fs i =
        (fs2, some (fatByte disk fs.boot_sector i)) ∧
      FatCacheOk disk fs2 ∧ FatStep fs fs2 := by
  by_cases hmiss : i + 1 < fs.fat_sector * 512 - (512 - 1) ∨
      fs.fat_sector * 512 < i + 1
  · refine ⟨FS.mk fs.boot_sector
        (fun j => disk (fatLba fs.boot_sector (i / 512 + 1) * 512 + j))
        fs.root_buffer (i / 512 + 1) fs.root_sector
        (⟨Dest.fat, fatLba fs.boot_sector (i / 512 + 1), 1⟩ :: fs.reads),
      ?_, ?_, ?_⟩
    · simp only [fat_buffer_read]
      rw [if_pos hmiss]
      unfold bufGet512
      rw [if_pos (Nat.mod_lt _ (by norm_num))]
      rfl
    · right
      intro j hj
      rfl
    · exact ⟨rfl, rfl, rfl, [⟨Dest.fat, fatLba fs.boot_sector (i / 512 + 1), 1⟩],
        rfl, by simp⟩
  · push_neg at hmiss
    obtain ⟨h1, h2⟩ := hmiss
    have hs : fs.fat_sector ≠ 0 := by
      intro h0
      rw [h0] at h2
      omega
    rcases hcache with h0 | hbuf
    · exact absurd h0 hs
    have hsec : i / 512 + 1 = fs.fat_sector := by omega
    refine ⟨fs, ?_, Or.inr hbuf, FatStep.refl fs⟩
    simp only [fat_buffer_read]
    rw [if_neg (by push_neg; exact ⟨h1, h2⟩)]
    unfold bufGet512
    rw [if_pos (Nat.mod_lt _ (by norm_num))]
    unfold fatByte
    rw [hsec, hbuf (i % 512) (Nat.mod_lt _ (by norm_num))]

theorem fat_entry_read_ok (disk : Nat → Nat) (fs : FS) (cluster : Nat)
    (hc : cluster ≤ 341) (hcache : FatCacheOk disk fs) :
    ∃ fs2, fat_entry_read disk fs cluster =
        PRes.ok (fs2, some (fatEntryAt disk fs.boot_sector cluster)) ∧
      FatCacheOk disk fs2 ∧ FatStep fs fs2 := by
  obtain ⟨fsa, ea, oka, sta⟩ := fat_buffer_read_ok disk fs (cluster * 3 / 2) hcache
  obtain ⟨fsb, eb, okb, stb⟩ :=
    fat_buffer_read_ok disk fsa (cluster * 3 / 2 + 1) oka
  refine ⟨fsb, ?_, okb, sta.trans stb⟩
  unfold fat_entry_read
  rw [if_neg (by omega)]
  simp only [ea, eb, sta.1]
  rfl

theorem file_read_step_mid (disk : Nat → Nat) (fs : FS) (file : File)
    (hrs : file.current_cluster_read_sectors + 1 <
      fs.boot_sector.get_cluster_size)
    (hcs : fs.boot_sector.get_cluster_size < 65536)
    (hclu : file.current_cluster < 4088) :
    file_read disk fs file = PRes.ok
      (logRead fs Dest.file
        (add16 (fs.boot_sector.get_cluster_offset file.current_cluster)
          file.current_cluster_read_sectors) 1,
       { file with
         finished := false
         buffer := copyIn disk file.buffer 0
           (add16 (fs.boot_sector.get_cluster_offset file.current_cluster)
             file.current_cluster_read_sectors) 1
         current_cluster_read_sectors :=
           file.current_cluster_read_sectors + 1 }) := by
  have e1 : sub16 fs.boot_sector.get_cluster_size
      file.current_cluster_read_sectors =
      fs.boot_sector.get_cluster_size - file.current_cluster_read_sectors :=
    sub16_small _ _ (by omega) hcs
  have e2 : min (fs.boot_sector.get_cluster_size -
      file.current_cluster_read_sectors) 1 = 1 := by omega
  have e3 : add16 file.current_cluster_read_sectors 1 =
      file.current_cluster_read_sectors + 1 := add16_small _ _ (by omega)
  have e4 : sub16 fs.boot_sector.get_cluster_size
      (file.current_cluster_read_sectors + 1) =
      fs.boot_sector.get_cluster_size -
        (file.current_cluster_read_sectors + 1) :=
    sub16_small _ _ (by omega) hcs
  have h5 : ¬(fs.boot_sector.get_cluster_size -
      (file.current_cluster_read_sectors + 1) = 0) := by omega
  have h6 : ¬(4088 ≤ file.current_cluster) := by omega
  unfold file_read
  rw [show File.SECTOR_SIZE * File.BUFFER_SIZE / File.SECTION_SIZE = 1 from rfl,
    show (3 : Nat) = 2 + 1 from rfl, fileReadLoop_succ]
  simp only [e1, e2, e3, e4, if_neg h5, if_neg h6]
  rfl

theorem FatCacheOk_logRead (disk : Nat → Nat) (fs : FS) (d : Dest)
    (l c : Nat) (h : FatCacheOk disk fs) :
    FatCacheOk disk (logRead fs d l c) := h

theorem sumFile_cons_file (l : Nat) (c : Nat) (rs : List Rd) :
    sumFile (⟨Dest.file, l, c⟩ :: rs) = c + sumFile rs := rfl

theorem file_read_step_end (disk : Nat → Nat) (fs : FS) (file : File)
    (hrs : file.current_cluster_read_sectors + 1 =
      fs.boot_sector.get_cluster_size)
    (hcs : fs.boot_sector.get_cluster_size < 65536)
    (hc : file.current_cluster ≤ 341)
    (hcache : FatCacheOk disk fs) :
    ∃ fs2 buf,
      (if 4088 ≤ fatEntryAt disk fs.boot_sector file.current_cluster then
        file_read disk fs file = PRes.ok (fs2,
          { file with
            finished := true
            buffer := buf
            current_cluster := file.metadata.lower_first_cluster
            current_cluster_read_sectors := 0 })
      else
        file_read disk fs file = PRes.ok (fs2,
          { file with
            finished := false
            buffer := buf
            current_cluster :=
              fatEntryAt disk fs.boot_sector file.current_cluster
            current_cluster_read_sectors := 0 })) ∧
      FatCacheOk disk fs2 ∧ fs2.boot_sector = fs.boot_sector ∧
      sumFile fs2.reads = 1 + sumFile fs.reads := by
  have hcache1 : FatCacheOk disk (logRead fs Dest.file
      (add16 (fs.boot_sector.get_cluster_offset file.current_cluster)
        file.current_cluster_read_sectors) 1) := hcache
  obtain ⟨fs2, efat, okfat, stfat⟩ :=
    fat_entry_read_ok disk
      (logRead fs Dest.file
        (add16 (fs.boot_sector.get_cluster_offset file.current_cluster)
          file.current_cluster_read_sectors) 1)
      file.current_cluster hc hcache1
  have hbs : (logRead fs Dest.file
      (add16 (fs.boot_sector.get_cluster_offset file.current_cluster)
        file.current_cluster_read_sectors) 1).boot_sector = fs.boot_sector :=
    rfl
  rw [hbs] at efat
  have e1 : sub16 fs.boot_sector.get_cluster_size
      file.current_cluster_read_sectors =
      fs.boot_sector.get_cluster_size - file.current_cluster_read_sectors :=
    sub16_small _ _ (by omega) hcs
  have e2 : min (fs.boot_sector.get_cluster_size -
      file.current_cluster_read_sectors) 1 = 1 := by omega
  have e3 : add16 file.current_cluster_read_sectors 1 =
      file.current_cluster_read_sectors + 1 := add16_small _ _ (by omega)
  have e4 : sub16 fs.boot_sector.get_cluster_size
      (file.current_cluster_read_sectors + 1) = 0 := by
    rw [hrs]
    rw [sub16_small _ _ le_rfl hcs]
    omega
  refine ⟨fs2, copyIn disk file.buffer 0
      (add16 (fs.boot_sector.get_cluster_offset file.current_cluster)
        file.current_cluster_read_sectors) 1,
    ?_, okfat, stfat.1.trans hbs, ?_⟩
  · by_cases hv : 4088 ≤ fatEntryAt disk fs.boot_sector file.current_cluster
    · rw [if_pos hv]
      unfold file_read
      rw [show File.SECTOR_SIZE * File.BUFFER_SIZE / File.SECTION_SIZE = 1
          from rfl,
        show (3 : Nat) = 2 + 1 from rfl, fileReadLoop_succ]
      simp only [e1, e2, e3, e4, eq_self_iff_true, if_true, efat, if_pos hv]
    · rw [if_neg hv]
      unfold file_read
      rw [show File.SECTOR_SIZE * File.BUFFER_SIZE / File.SECTION_SIZE = 1
          from rfl,
        show (3 : Nat) = 2 + 1 from rfl, fileReadLoop_succ]
      simp only [e1, e2, e3, e4, eq_self_iff_true, if_true, efat, if_neg hv]
  · rw [stfat.sumFile_eq]
    rfl

theorem iterRead_chain (disk : Nat → Nat) (c : Nat → Nat) (L : Nat)
    (boot : BootSector)
    (hcs : boot.get_cluster_size < 65536)
    (hlt : ∀ i, i < L → c i ≤ 341)
    (hchain : ∀ i, i < L → fatEntryAt disk boot (c i) = c (i + 1))
    (hend : 4088 ≤ c L) :
    ∀ m k r fs file,
      fs.boot_sector = boot →
      FatCacheOk disk fs →
      k < L → r < boot.get_cluster_size →
      m = L * boot.get_cluster_size - (k * boot.get_cluster_size + r) →
      file.current_cluster = c k →
      file.current_cluster_read_sectors = r →
      ∃ fs2 file2,
        iterRead disk m fs file = PRes.ok (fs2, file2) ∧
        file2.finished = true ∧
        file2.current_cluster = file.metadata.lower_first_cluster ∧
        file2.current_cluster_read_sectors = 0 ∧
        file2.metadata = file.metadata ∧
        sumFile fs2.reads = m + sumFile fs.reads := by
  intro m
  induction m using Nat.strong_induction_on with
  | _ m IH =>
    intro k r fs file hb hcache hk hr hm hcc hrs
    have hexp : (k + 1) * boot.get_cluster_size =
        k * boot.get_cluster_size + boot.get_cluster_size := by ring
    have hbound : k * boot.get_cluster_size + r < L * boot.get_cluster_size := by
      have h1 : (k + 1) * boot.get_cluster_size ≤ L * boot.get_cluster_size :=
        Nat.mul_le_mul_right _ (by omega)
      omega
    obtain ⟨n, rfl⟩ : ∃ n, m = n + 1 := ⟨m - 1, by omega⟩
    by_cases hcase : r + 1 < boot.get_cluster_size
    · have hyp1 : file.current_cluster_read_sectors + 1 <
          fs.boot_sector.get_cluster_size := by rw [hrs, hb]; exact hcase
      have hyp2 : fs.boot_sector.get_cluster_size < 65536 := by
        rw [hb]; exact hcs
      have hyp3 : file.current_cluster < 4088 := by
        have := hlt k hk
        omega
      simp only [iterRead, file_read_step_mid disk fs file hyp1 hyp2 hyp3]
      obtain ⟨fs2, file2, e, p1, p2, p3, p4, p5⟩ :=
        IH n (by omega) k (r + 1)
          (logRead fs Dest.file
            (add16 (fs.boot_sector.get_cluster_offset file.current_cluster)
              file.current_cluster_read_sectors) 1)
          { file with
            finished := false
            buffer := copyIn disk file.buffer 0
              (add16 (fs.boot_sector.get_cluster_offset file.current_cluster)
                file.current_cluster_read_sectors) 1
            current_cluster_read_sectors :=
              file.current_cluster_read_sectors + 1 }
          hb hcache hk hcase (by omega) hcc (by rw [hrs])
      refine ⟨fs2, file2, e, p1, p2, p3, p4, ?_⟩
      rw [p5]
      have hone : sumFile (logRead fs Dest.file
          (add16 (fs.boot_sector.get_cluster_offset file.current_cluster)
            file.current_cluster_read_sectors) 1).reads =
          1 + sumFile fs.reads := rfl
      rw [hone]
      omega
    · have hrcs : r + 1 = boot.get_cluster_size := by omega
      obtain ⟨fs2, buf, hif, okf, hbs2, hsum⟩ :=
        file_read_step_end disk fs file
          (by rw [hrs, hb]; exact hrcs) (by rw [hb]; exact hcs)
          (by rw [hcc]; exact hlt k hk) hcache
      rw [hb, hcc, hchain k hk] at hif
      by_cases hkL : k + 1 < L
      · have hv : ¬(4088 ≤ c (k + 1)) := by
          have := hlt (k + 1) hkL
          omega
        rw [if_neg hv] at hif
        simp only [iterRead, hif]
        obtain ⟨fs3, file3, e, p1, p2, p3, p4, p5⟩ :=
          IH n (by omega) (k + 1) 0 fs2
            { file with
              finished := false
              buffer := buf
              current_cluster := c (k + 1)
              current_cluster_read_sectors := 0 }
            (hbs2.trans hb) okf hkL (by omega) (by omega) rfl rfl
        refine ⟨fs3, file3, e, p1, p2, p3, p4, ?_⟩
        rw [p5, hsum]
        omega
      · have hLk : L = k + 1 := by omega
        have hv : 4088 ≤ c (k + 1) := by rw [← hLk]; exact hend
        rw [if_pos hv] at hif
        have hLcs : L * boot.get_cluster_size =
            k * boot.get_cluster_size + boot.get_cluster_size := by
          rw [hLk]
          ring
        have hn : n = 0 := by omega
        subst hn
        simp only [iterRead, hif]
        exact ⟨fs2, _, rfl, rfl, rfl, rfl, rfl, by rw [hsum]⟩

/-- C1 (amended): for a file whose cluster chain c 0, c 1, ..., c (L-1)
reaches the end-of-chain sentinel (fat entry of c (L-1) is >= 0xFF8), with
every chain cluster at most 341 (so that the FAT byte index stays below the
512-byte bound of fat_entry_read's guard), and the one-sector File buffer
smaller than one cluster, L * sectors_per_cluster calls of file_read end
with finished = true, current_cluster reset to metadata.lower_first_cluster,
current_cluster_read_sectors = 0, and exactly
L * sectors_per_cluster * 512 bytes delivered into the File buffer. -/
theorem c1_stream_finishes (disk : Nat → Nat) (fs : FS) (file : File)
    (c : Nat → Nat) (L : Nat)
    (hcs2 : 2 ≤ fs.boot_sector.get_cluster_size)
    (hcs : fs.boot_sector.get_cluster_size < 65536)
    (hcache : FatCacheOk disk fs)
    (hL : 1 ≤ L)
    (hlt : ∀ i, i < L → c i ≤ 341)
    (hchain : ∀ i, i < L → fatEntryAt disk fs.boot_sector (c i) = c (i + 1))
    (hend : 4088 ≤ c L)
    (hcc : file.current_cluster = c 0)
    (hrs : file.current_cluster_read_sectors = 0) :
    ∃ fs2 file2,
      iterRead disk (L * fs.boot_sector.get_cluster_size) fs file =
        PRes.ok (fs2, file2) ∧
      file2.finished = true ∧
      file2.current_cluster = file.metadata.lower_first_cluster ∧
      file2.current_cluster_read_sectors = 0 ∧
      512 * sumFile fs2.reads =
        L * fs.boot_sector.get_cluster_size * 512 + 512 * sumFile fs.reads := by
  obtain ⟨fs2, file2, e, p1, p2, p3, _, p5⟩ :=
    iterRead_chain disk c L fs.boot_sector hcs hlt hchain hend
      (L * fs.boot_sector.get_cluster_size) 0 0 fs file rfl hcache
      (by omega) (by omega) (by simp) hcc hrs
  exact ⟨fs2, file2, e, p1, p2, p3, by rw [p5]; ring⟩

/-- Entry whose first cluster is 2. -/
def entryTwo : DirectoryEntry :=
  { entryZero with lower_first_cluster := 2 }

/-- Disk whose FAT (starting at lba 1 for bootC2) holds the 12-bit chain
2 -> 3 -> 0xFFF: FAT bytes 3, 4, 5 are 0x03, 0xF0, 0xFF. -/
def diskC1 : Nat → Nat := fun a =>
  if a = 515 then 3 else if a = 516 then 240 else if a = 517 then 255 else 0

/-- Chain function of diskC1 for a file starting at cluster 2. -/
def cW : Nat → Nat := fun i => if i = 0 then 2 else if i = 1 then 3 else 4095

/-- Witness for C1 on the two-cluster chain of diskC1 (cluster size 2, so 4
calls of file_read). -/
theorem c1_stream_finishes_witness :
    2 ≤ (fsInit bootC2).boot_sector.get_cluster_size ∧
    ∃ fs2 file2,
      iterRead diskC1
          (2 * (fsInit bootC2).boot_sector.get_cluster_size)
          (fsInit bootC2) (File.new entryTwo) =
        PRes.ok (fs2, file2) ∧
      file2.finished = true ∧
      file2.current_cluster = (File.new entryTwo).metadata.lower_first_cluster ∧
      file2.current_cluster_read_sectors = 0 ∧
      512 * sumFile fs2.reads =
        2 * (fsInit bootC2).boot_sector.get_cluster_size * 512 +
          512 * sumFile (fsInit bootC2).reads :=
  ⟨by decide,
   c1_stream_finishes diskC1 (fsInit bootC2) (File.new entryTwo) cW 2
     (by decide) (by decide) (Or.inl rfl) (by decide) (by decide) (by decide)
     (by decide) rfl rfl⟩

/-- Entry whose first cluster is 342 (FAT byte index 513). -/
def entry342 : DirectoryEntry :=
  { entryZero with lower_first_cluster := 342 }

/-- Disk whose on-disk FAT encodes the 12-bit entry 0xFFF for cluster 342:
byte index 513 (low 8 bits) and the low nibble of byte index 514 live in FAT
sector 2, which for bootC2 (FAT offset 1) is lba 2, disk bytes 1025 and
1026. -/
def diskC1x : Nat → Nat := fun a =>
  if a = 1025 then 255 else if a = 1026 then 15 else 0

/-- Counterexample for C1 as stated: on diskC1x the on-disk FAT entry of
cluster 342 decodes (by the code's own codec formula) to 0xFFF >= 0xFF8, so
a file with first cluster 342 has a cluster chain that immediately reaches
the end-of-chain sentinel and satisfies the claim's hypothesis; yet the
second file_read call hits fat_entry_read's out-of-bounds guard (byte index
513 >= 512 buffer length) and repeated calls panic instead of ever setting
finished = true (the panic persists no matter how many calls are made). -/
theorem c1_chain_panics :
    fatEntryAt diskC1x bootC2 342 = 4095 ∧
    iterRead diskC1x 2 (fsInit bootC2) (File.new entry342) = PRes.panic ∧
    iterRead diskC1x 50 (fsInit bootC2) (File.new entry342) = PRes.panic :=
  ⟨by decide, rfl, rfl⟩

/-- C10: get_cluster_offset computes cluster_region_offset +
cluster_size * (cluster - 2) in unchecked u16 arithmetic, so for cluster
values 0 and 1 the subtraction wraps modulo 2^16 ((cluster - 2) becomes
cluster + 65534) and file_read issues its disk read at the wrapped offset
and delivers a sector instead of failing or returning no data. -/
theorem c10_cluster_offset_wraps (disk : Nat → Nat) (fs : FS) (file : File)
    (hclu : file.current_cluster < 2)
    (hrs : file.current_cluster_read_sectors = 0)
    (hcs2 : 2 ≤ fs.boot_sector.get_cluster_size)
    (hcs : fs.boot_sector.get_cluster_size < 65536) :
    ∃ fs2 file2,
      file_read disk fs file = PRes.ok (fs2, file2) ∧
      fs2.reads = ⟨Dest.file,
        (fs.boot_sector.get_cluster_region_offset +
          fs.boot_sector.get_cluster_size *
            (file.current_cluster + 65534)) % 65536, 1⟩ :: fs.reads ∧
      file2.current_cluster_read_sectors = 1 ∧
      file2.finished = false := by
  have hmid := file_read_step_mid disk fs file (by omega) hcs (by omega)
  rw [hrs] at hmid
  have hsub : sub16 file.current_cluster 2 = file.current_cluster + 65534 := by
    unfold sub16
    omega
  have e : add16 (fs.boot_sector.get_cluster_offset file.current_cluster) 0 =
      (fs.boot_sector.get_cluster_region_offset +
        fs.boot_sector.get_cluster_size *
          (file.current_cluster + 65534)) % 65536 := by
    unfold BootSector.get_cluster_offset
    rw [hsub]
    unfold add16
    omega
  rw [e] at hmid
  exact ⟨_, _, hmid, rfl, rfl, rfl⟩

/-- Witness for C10: an empty-file entry (first cluster 0) on the bootC2
geometry; the wrapped read offset is (5 + 2 * 65534) % 65536 = 65537 % ... -/
theorem c10_cluster_offset_wraps_witness :
    (File.new entryZero).current_cluster < 2 ∧
    ∃ fs2 file2,
      file_read diskZero (fsInit bootC2) (File.new entryZero) =
        PRes.ok (fs2, file2) ∧
      fs2.reads = ⟨Dest.file,
        ((fsInit bootC2).boot_sector.get_cluster_region_offset +
          (fsInit bootC2).boot_sector.get_cluster_size *
            ((File.new entryZero).current_cluster + 65534)) % 65536, 1⟩ ::
          (fsInit bootC2).reads ∧
      file2.current_cluster_read_sectors = 1 ∧
      file2.finished = false :=
  ⟨by decide,
   c10_cluster_offset_wraps diskZero (fsInit bootC2) (File.new entryZero)
     (by decide) rfl (by decide) (by decide)⟩

/-- FS::ENTRIES_PER_SECTOR: directory entries per disk sector. -/
def FS.ENTRIES_PER_SECTOR : Nat := 512 / 32

/-- The lba computed for a root-directory sector number (1-indexed):
get_root_offset() + sector - 1 in wrapping u16 arithmetic. -/
def rootLba (b : BootSector) (s : Nat) : Nat :=
  sub16 (add16 b.get_root_offset (s % 65536)) 1

/-- Cache-and-fetch step of FS::get_entry_from_root (fs/mod.rs lines
222-247): single-sector read-through cache over the root directory region;
on a window miss the owning sector (entry_index / 16 + 1) is loaded and
recorded, then the entry at entry_index % 16 of the buffer is returned. -/
def root_buffer_read (disk : Nat → Nat) (fs : FS) (entry_index : Nat) :
    FS × Option DirectoryEntry :=
  let max_entry := fs.root_sector * FS.ENTRIES_PER_SECTOR
  let min_entry := max_entry - (FS.ENTRIES_PER_SECTOR - 1)
  let fs1 :=
    if entry_index + 1 < min_entry ∨ max_entry < entry_index + 1 then
      let s := entry_index / 16 + 1
      let lba := rootLba fs.boot_sector s
      let fs1 := logRead fs Dest.root lba 1
      { fs1 with
        root_sector := s
        root_buffer := fun j => entryAt disk (lba * 512 + 32 * j) }
    else fs
  (fs1, bufGetRoot fs1.root_buffer (entry_index % FS.ENTRIES_PER_SECTOR))

/-- Root-directory entry at a global entry index, as fetched through the
cache: entry index % 16 of the sector that the cache loads for it. -/
def rootEntryAt (disk : Nat → Nat) (b : BootSector) (j : Nat) :
    DirectoryEntry :=
  entryAt disk (rootLba b (j / 16 + 1) * 512 + 32 * (j % 16))

/-- Invariant of the root directory cache: either no sector has been loaded
yet (root_sector = 0), or the cache holds the 16 entries of the resident
sector as root_buffer_read loads them. -/
def RootCacheOk (disk : Nat → Nat) (fs : FS) : Prop :=
  fs.root_sector = 0 ∨
    ∀ j, j < 16 →
      fs.root_buffer j =
        entryAt disk (rootLba fs.boot_sector fs.root_sector * 512 + 32 * j)

/-- Loop of FS::get_entry_from_root (fs/mod.rs lines 219-258), indexed by
the number of remaining root entries: stop with none at the first entry
whose name's first byte is 0, return the first entry whose 11-byte name
equals the searched name, otherwise advance. -/
def rootScanAux (disk : Nat → Nat) (name : List Nat) :
    Nat → Nat → FS → FS × Option DirectoryEntry
  | 0, _, fs => (fs, none)
  | n + 1, idx, fs =>
    match root_buffer_read disk fs idx with
    | (fs1, none) => (fs1, none)
    | (fs1, some entry) =>
      match entry.name.head? with
      | none => (fs1, none)
      | some b0 =>
        if b0 = 0 then (fs1, none)
        else if name = entry.name then (fs1, some entry)
        else rootScanAux disk name n (idx + 1) fs1

/-- FS::get_entry_from_root: scan all boot-sector root entries from index
0. -/
def get_entry_from_root (disk : Nat → Nat) (fs : FS) (name : List Nat) :
    FS × Option DirectoryEntry :=
  rootScanAux disk name fs.boot_sector.root_entries 0 fs

theorem entryAt_head (b : Nat → Nat) (base : Nat) :
    (entryAt b base).name.head? = some (b (base + 0)) := rfl

theorem root_buffer_read_ok (disk : Nat → Nat) (fs : FS) (i : Nat)
    (hcache : RootCacheOk disk fs) :
    ∃ fs2, root_buffer_read disk fs i =
        (fs2, some (rootEntryAt disk fs.boot_sector i)) ∧
      RootCacheOk disk fs2 ∧ fs2.boot_sector = fs.boot_sector ∧
      fs2.fat_buffer = fs.fat_buffer ∧ fs2.fat_sector = fs.fat_sector ∧
      (fs2.reads = fs.reads ∨
        fs2.reads = ⟨Dest.root, rootLba fs.boot_sector (i / 16 + 1), 1⟩ ::
          fs.reads) := by
  have hEPS : FS.ENTRIES_PER_SECTOR = 16 := rfl
  by_cases hmiss : i + 1 < fs.root_sector * 16 - (16 - 1) ∨
      fs.root_sector * 16 < i + 1
  · refine ⟨FS.mk fs.boot_sector fs.fat_buffer
        (fun j => entryAt disk (rootLba fs.boot_sector (i / 16 + 1) * 512 +
          32 * j))
        fs.fat_sector (i / 16 + 1)
        (⟨Dest.root, rootLba fs.boot_sector (i / 16 + 1), 1⟩ :: fs.reads),
      ?_, ?_, rfl, rfl, rfl, Or.inr rfl⟩
    · simp only [root_buffer_read, hEPS]
      rw [if_pos hmiss]
      unfold bufGetRoot
      rw [if_pos (show i % 16 < 16 from Nat.mod_lt _ (by norm_num))]
      rfl
    · right
      intro j hj
      rfl
  · push_neg at hmiss
    obtain ⟨h1, h2⟩ := hmiss
    have hs : fs.root_sector ≠ 0 := by
      intro h0
      rw [h0] at h2
      omega
    rcases hcache with h0 | hbuf
    · exact absurd h0 hs
    have hsec : i / 16 + 1 = fs.root_sector := by omega
    refine ⟨fs, ?_, Or.inr hbuf, rfl, rfl, rfl, Or.inl rfl⟩
    simp only [root_buffer_read, hEPS]
    rw [if_neg (by push_neg; exact ⟨h1, h2⟩)]
    unfold bufGetRoot
    rw [if_pos (show i % 16 < 16 from Nat.mod_lt _ (by norm_num))]
    unfold rootEntryAt
    rw [hsec, hbuf (i % 16) (Nat.mod_lt _ (by norm_num))]

theorem rootScanAux_stops (disk : Nat → Nat) (nm : List Nat) (k : Nat)
    (boot : BootSector)
    (hk0 : (rootEntryAt disk boot k).name.head? = some 0) :
    ∀ n idx fs,
      fs.boot_sector = boot →
      RootCacheOk disk fs →
      idx ≤ k → k < idx + n →
      (∀ j, idx ≤ j → j < k →
        ¬(rootEntryAt disk boot j).name.head? = some 0 ∧
          nm ≠ (rootEntryAt disk boot j).name) →
      (rootScanAux disk nm n idx fs).2 = none ∧
      ∀ r ∈ (rootScanAux disk nm n idx fs).1.reads,
        r ∈ fs.reads ∨
          ∃ s, s ≤ k / 16 ∧ r = ⟨Dest.root, rootLba boot (s + 1), 1⟩ := by
  intro n
  induction n with
  | zero =>
    intro idx fs _ _ hik hkn _
    omega
  | succ n IH =>
    intro idx fs hb hcache hik hkn hinv
    obtain ⟨fs1, e1, ok1, hb1, _, _, hrd⟩ := root_buffer_read_ok disk fs idx hcache
    rw [hb] at e1
    have hread : ∀ r ∈ fs1.reads, r ∈ fs.reads ∨
        ∃ s, s ≤ k / 16 ∧ r = ⟨Dest.root, rootLba boot (s + 1), 1⟩ := by
      intro r hr
      rcases hrd with h | h
      · exact Or.inl (h ▸ hr)
      · rw [h] at hr
        rcases List.mem_cons.mp hr with h2 | h2
        · right
          refine ⟨idx / 16, Nat.div_le_div_right hik, ?_⟩
          rw [h2, hb]
        · exact Or.inl h2
    by_cases hidx : idx = k
    · subst hidx
      have hb0 : (rootEntryAt disk boot idx).name.head? =
          some (disk (rootLba boot (idx / 16 + 1) * 512 + 32 * (idx % 16) + 0)) :=
        entryAt_head _ _
      rw [hb0] at hk0
      simp only [rootScanAux, e1, hb0, Option.some.injEq] at hk0 ⊢
      rw [if_pos hk0]
      exact ⟨rfl, hread⟩
    · have hik2 : idx < k := by omega
      obtain ⟨hnz, hne⟩ := hinv idx le_rfl hik2
      have hb0 : (rootEntryAt disk boot idx).name.head? =
          some (disk (rootLba boot (idx / 16 + 1) * 512 + 32 * (idx % 16) + 0)) :=
        entryAt_head _ _
      rw [hb0] at hnz
      simp only [Option.some.injEq] at hnz
      simp only [rootScanAux, e1, hb0]
      rw [if_neg hnz, if_neg hne]
      obtain ⟨r1, r2⟩ := IH (idx + 1) fs1 (hb1.trans hb) ok1 (by omega)
        (by omega) (fun j hj1 hj2 => hinv j (by omega) hj2)
      refine ⟨r1, ?_⟩
      intro r hr
      rcases r2 r hr with h | h
      · exact hread r h
      · exact Or.inr h

/-- C7: if root entry k is the first whose name's first byte is 0x00 and the
searched name matches no entry before k, get_entry_from_root returns None,
and every disk read it issues targets a root-directory sector no further
than the one owning entry k (entries beyond k are never fetched, so an entry
with the searched name placed after k is never returned). -/
theorem c7_root_scan_stops (disk : Nat → Nat) (fs : FS) (nm : List Nat)
    (k : Nat)
    (hcache : RootCacheOk disk fs)
    (hk : k < fs.boot_sector.root_entries)
    (hk0 : (rootEntryAt disk fs.boot_sector k).name.head? = some 0)
    (hpre : ∀ j, j < k →
      ¬(rootEntryAt disk fs.boot_sector j).name.head? = some 0 ∧
        nm ≠ (rootEntryAt disk fs.boot_sector j).name) :
    (get_entry_from_root disk fs nm).2 = none ∧
    ∀ r ∈ (get_entry_from_root disk fs nm).1.reads,
      r ∈ fs.reads ∨
        ∃ s, s ≤ k / 16 ∧
          r = ⟨Dest.root, rootLba fs.boot_sector (s + 1), 1⟩ :=
  rootScanAux_stops disk nm k fs.boot_sector hk0
    fs.boot_sector.root_entries 0 fs rfl hcache (by omega) (by omega)
    (fun j _ hj => hpre j hj)

/-- Disk whose root directory (at lba 3 for bootC2) has entry 0 named with
eleven bytes 65 and entry 1 with a 0x00 first name byte. -/
def diskC7 : Nat → Nat := fun a => if 1536 ≤ a ∧ a < 1547 then 65 else 0

/-- Witness for C7: searching for a non-matching name stops at entry index 1
of diskC7. -/
theorem c7_root_scan_stops_witness :
    (1 < (fsInit bootC2).boot_sector.root_entries ∧
      (rootEntryAt diskC7 (fsInit bootC2).boot_sector 1).name.head? =
        some 0) ∧
    (get_entry_from_root diskC7 (fsInit bootC2)
      (List.replicate 11 66)).2 = none ∧
    ∀ r ∈ (get_entry_from_root diskC7 (fsInit bootC2)
        (List.replicate 11 66)).1.reads,
      r ∈ (fsInit bootC2).reads ∨
        ∃ s, s ≤ 1 / 16 ∧
          r = ⟨Dest.root, rootLba (fsInit bootC2).boot_sector (s + 1), 1⟩ :=
  ⟨⟨by decide, by decide⟩,
   c7_root_scan_stops diskC7 (fsInit bootC2) (List.replicate 11 66) 1
     (Or.inl rfl) (by decide) (by decide) (by decide)⟩

/-- FS::ENTRIES_PER_FILE_BUFFER (fs/mod.rs line 262): window advance amount
of the directory scan.  Note the source subtracts 1 although the cast
dir_buffer view holds BUFFER_SIZE * SECTION_SIZE / 32 = 16 entries. -/
def FS.ENTRIES_PER_FILE_BUFFER : Nat :=
  File.BUFFER_SIZE * File.SECTION_SIZE / 32 - 1

/-- Models dir_buffer.get on the typed view of the File buffer as
SECTION_SIZE * BUFFER_SIZE / 32 = 16 directory entries (the
from_raw_parts cast at fs/mod.rs line 279). -/
def dirBufGet (buf : Nat → Nat) (k : Nat) : Option DirectoryEntry :=
  if k < File.SECTION_SIZE * File.BUFFER_SIZE / 32 then
    some (entryAt buf (32 * k))
  else none

/-- Loop of FS::get_entry_from_directory (fs/mod.rs lines 286-308),
fuel-indexed: when the running entry index leaves the [min_entry, max_entry]
window, pull the next chunk with file_read and advance both bounds by
ENTRIES_PER_FILE_BUFFER; then read the entry at index %
ENTRIES_PER_FILE_BUFFER of the buffer view and apply the 0x00-terminator
and name-equality rules. -/
def dirScan (disk : Nat → Nat) (name : List Nat) :
    Nat → FS → File → Nat → Nat → Nat →
    PRes (FS × File × Option DirectoryEntry)
  | 0, _, _, _, _, _ => PRes.stuck
  | n + 1, fs, file, idx, maxE, minE =>
    match (if idx < minE ∨ maxE < idx then
        match file_read disk fs file with
        | PRes.panic => PRes.panic
        | PRes.stuck => PRes.stuck
        | PRes.ok (fs1, file1) =>
          PRes.ok (fs1, file1, maxE + FS.ENTRIES_PER_FILE_BUFFER,
            minE + FS.ENTRIES_PER_FILE_BUFFER)
      else PRes.ok (fs, file, maxE, minE) :
      PRes (FS × File × Nat × Nat)) with
    | PRes.panic => PRes.panic
    | PRes.stuck => PRes.stuck
    | PRes.ok (fs1, file1, maxE1, minE1) =>
      match dirBufGet file1.buffer (idx % FS.ENTRIES_PER_FILE_BUFFER) with
      | none => PRes.ok (fs1, file1, none)
      | some entry =>
        match entry.name.head? with
        | none => PRes.ok (fs1, file1, none)
        | some b0 =>
          if b0 = 0 then PRes.ok (fs1, file1, none)
          else if name = entry.name then PRes.ok (fs1, file1, some entry)
          else dirScan disk name n fs1 file1 (idx + 1) maxE1 minE1

/-- FS::get_entry_from_directory (fs/mod.rs lines 269-310): reset the File
cursor if it has partial progress, read the first chunk, then scan the
buffered entries window by window. -/
def get_entry_from_directory (disk : Nat → Nat) (fuel : Nat) (fs : FS)
    (file : File) (entry_name : List Nat) :
    PRes (FS × File × Option DirectoryEntry) :=
  let file0 := if file.current_cluster_read_sectors ≠ 0 then File.reset file
    else file
  match file_read disk fs file0 with
  | PRes.panic => PRes.panic
  | PRes.stuck => PRes.stuck
  | PRes.ok (fs1, file1) =>
    dirScan disk entry_name fuel fs1 file1 0 FS.ENTRIES_PER_FILE_BUFFER 0

/-- Index of the last '.' (byte 46) of a name, scanning from the end as the
source loop does; none when no dot occurs. -/
def lastDotAux : List Nat → Nat → Option Nat
  | [], _ => none
  | c :: rest, i =>
    match lastDotAux rest (i + 1) with
    | some j => some j
    | none => if c = 46 then some i else none

/-- Extension start of FS::parse_entry_name: index of the last '.', or the
(truncated) name length when there is none. -/
def extIndex (nm : List Nat) : Nat := (lastDotAux nm 0).getD nm.length

/-- FS::parse_entry_name (fs/mod.rs lines 459-496): truncate to 11 bytes,
uppercase, left-justify the part before the last dot, right-justify the part
after it, pad with spaces (byte 32). -/
def parse_entry_name (raw : List Nat) : List Nat :=
  let nm := raw.take 11
  let len := nm.length
  let ext := extIndex nm
  (List.range 11).map fun p =>
    if p < ext then toUpper (nm.getD p 0)
    else if ext + 1 ≤ p + len - 11 ∧ p + len - 11 < len then
      toUpper (nm.getD (p + len - 11) 0)
    else 32

/-- Models Rust slice::split on a separator byte: splitting an empty slice
yields one empty segment; each separator occurrence closes the current
segment. -/
def splitSep (sep : Nat) : List Nat → List (List Nat)
  | [] => [[]]
  | c :: rest =>
    if c = sep then [] :: splitSep sep rest
    else
      match splitSep sep rest with
      | s :: ss => (c :: s) :: ss
      | [] => [[c]]

/-- Loop of FS::get_entry_from_absolute_path (fs/mod.rs lines 178-202) over
the remaining path segments: a further segment requires the current entry to
be a directory (else None), empty segments are skipped, and non-empty ones
are normalized and looked up in the current directory opened as a File. -/
def resolveLoop (disk : Nat → Nat) (fuel : Nat) :
    List (List Nat) → FS → DirectoryEntry →
    PRes (FS × Option DirectoryEntry)
  | [], fs, entry => PRes.ok (fs, some entry)
  | seg :: rest, fs, entry =>
    if entry.is_directory = false then PRes.ok (fs, none)
    else if seg.isEmpty then resolveLoop disk fuel rest fs entry
    else
      match get_entry_from_directory disk fuel fs (File.new entry)
          (parse_entry_name seg) with
      | PRes.panic => PRes.panic
      | PRes.stuck => PRes.stuck
      | PRes.ok (fs1, _, none) => PRes.ok (fs1, none)
      | PRes.ok (fs1, _, some e) => resolveLoop disk fuel rest fs1 e

/-- FS::get_entry_from_absolute_path (fs/mod.rs lines 161-208): panic unless
the path starts with '/', split the remainder on '/', resolve the first
segment against the root directory, then walk the remaining segments.
Indexing path[0] on an empty path is itself a fatal (panic) bounds error. -/
def get_entry_from_absolute_path (disk : Nat → Nat) (fuel : Nat) (fs : FS)
    (path : List Nat) : PRes (FS × Option DirectoryEntry) :=
  match path with
  | [] => PRes.panic
  | p0 :: rest =>
    if p0 ≠ 47 then PRes.panic
    else
      match splitSep 47 rest with
      | [] => PRes.ok (fs, none)
      | s0 :: segs =>
        match get_entry_from_root disk fs (parse_entry_name s0) with
        | (fs1, none) => PRes.ok (fs1, none)
        | (fs1, some entry) => resolveLoop disk fuel segs fs1 entry

/-- Observable outcome of a path resolution: some (some e) for a found
entry, some none for a recoverable not-found, none for a fatal halt or
divergence. -/
def resOpt : PRes (FS × Option DirectoryEntry) →
    Option (Option DirectoryEntry)
  | PRes.ok (_, o) => some o
  | _ => none

/-- Observable outcome of a directory lookup. -/
def resOptD : PRes (FS × File × Option DirectoryEntry) →
    Option (Option DirectoryEntry)
  | PRes.ok (_, _, o) => some o
  | _ => none

/-- Doc example of parse_entry_name: "test.bin" becomes "TEST    BIN". -/
theorem parse_entry_name_example1 :
    parse_entry_name [116, 101, 115, 116, 46, 98, 105, 110] =
    [84, 69, 83, 84, 32, 32, 32, 32, 66, 73, 78] := by decide

/-- Doc example of parse_entry_name: "dir" becomes "DIR        ". -/
theorem parse_entry_name_example2 :
    parse_entry_name [100, 105, 114] =
    [68, 73, 82, 32, 32, 32, 32, 32, 32, 32, 32] := by decide

/-- Doc example of parse_entry_name: "iamlongerthan11" is truncated to
"IAMLONGERTH". -/
theorem parse_entry_name_example3 :
    parse_entry_name [105, 97, 109, 108, 111, 110, 103, 101, 114, 116, 104,
      97, 110, 49, 49] =
    [73, 65, 77, 76, 79, 78, 71, 69, 82, 84, 72] := by decide

theorem resolveLoop_cons (disk : Nat → Nat) (fuel : Nat) (seg : List Nat)
    (rest : List (List Nat)) (fs : FS) (e : DirectoryEntry) :
    resolveLoop disk fuel (seg :: rest) fs e =
    (if e.is_directory = false then PRes.ok (fs, none)
     else if seg.isEmpty then resolveLoop disk fuel rest fs e
     else
       match get_entry_from_directory disk fuel fs (File.new e)
           (parse_entry_name seg) with
       | PRes.panic => PRes.panic
       | PRes.stuck => PRes.stuck
       | PRes.ok (fs1, _, none) => PRes.ok (fs1, none)
       | PRes.ok (fs1, _, some e2) => resolveLoop disk fuel rest fs1 e2) :=
  rfl

theorem splitSep_ne_nil (sep : Nat) (l : List Nat) : splitSep sep l ≠ [] := by
  cases l with
  | nil => simp [splitSep]
  | cons c rest =>
    unfold splitSep
    by_cases hc : c = sep
    · simp [hc]
    · rw [if_neg hc]
      rcases h : splitSep sep rest with _ | ⟨s, ss⟩
      · simp
      · simp

theorem splitSep_append (sep : Nat) (A B : List Nat) (hA : sep ∉ A) :
    splitSep sep (A ++ sep :: B) = A :: splitSep sep B := by
  induction A with
  | nil =>
    simp only [List.nil_append]
    conv_lhs => unfold splitSep
    rw [if_pos rfl]
  | cons c cs ih =>
    have hc : c ≠ sep := by
      intro h
      exact hA (by simp [h])
    have hcs : sep ∉ cs := fun h => hA (by simp [h])
    rw [List.cons_append]
    conv_lhs => unfold splitSep
    rw [if_neg hc, ih hcs]

/-- C5 (amended): an empty path segment that is followed by at least one
more segment is skipped without any effect, so a doubled separator strictly
between two segments never changes the result of the segment walk.  (A
leading extra separator is not skipped: it makes the first segment empty,
which is normalized to eleven spaces and looked up literally in the root;
and a trailing separator appends an empty final segment, which still
triggers the is_directory check and turns a found file into None.) -/
theorem c5_empty_segment_skipped (disk : Nat → Nat) (fuel : Nat)
    (xs ys : List (List Nat)) (fs : FS) (e : DirectoryEntry)
    (hys : ys ≠ []) :
    resolveLoop disk fuel (xs ++ [] :: ys) fs e =
    resolveLoop disk fuel (xs ++ ys) fs e := by
  induction xs generalizing fs e with
  | nil =>
    obtain ⟨z, zs, rfl⟩ := List.exists_cons_of_ne_nil hys
    simp only [List.nil_append]
    rw [resolveLoop_cons]
    by_cases hd : e.is_directory = false
    · rw [if_pos hd, resolveLoop_cons, if_pos hd]
    · rw [if_neg hd]
      rfl
  | cons s xs ih =>
    rw [List.cons_append, List.cons_append, resolveLoop_cons, resolveLoop_cons]
    by_cases hd : e.is_directory = false
    · rw [if_pos hd, if_pos hd]
    · rw [if_neg hd, if_neg hd]
      by_cases hse : s.isEmpty
      · rw [if_pos hse, if_pos hse]
        exact ih fs e
      · rw [if_neg hse, if_neg hse]
        rcases hg : get_entry_from_directory disk fuel fs (File.new e)
            (parse_entry_name s) with ⟨fs1, file1, o⟩ | _ | _
        · rcases o with _ | e2
          · rfl
          · exact ih fs1 e2
        · rfl
        · rfl

/-- Disk whose root directory (at lba 3 for bootC2) holds a single entry
named "A          " with the archive attribute 0x20 (not a directory);
entry 1 has a 0x00 first name byte. -/
def diskC6 : Nat → Nat := fun a =>
  if a = 1536 then 65 else if 1537 ≤ a ∧ a ≤ 1547 then 32 else 0

/-- Counterexample for C5: on diskC6, "/A" resolves to the entry named "A",
but "//A" resolves the empty first segment (normalized to eleven spaces)
against the root and yields None, and "/A/" fails the directory check on the
trailing empty segment and also yields None: extra separators do change the
returned entry. -/
theorem c5_extra_separators_change_result :
    resOpt (get_entry_from_absolute_path diskC6 9 (fsInit bootC2) [47, 65]) =
      some (some (entryAt diskC6 1536)) ∧
    resOpt (get_entry_from_absolute_path diskC6 9 (fsInit bootC2)
      [47, 47, 65]) = some none ∧
    resOpt (get_entry_from_absolute_path diskC6 9 (fsInit bootC2)
      [47, 65, 47]) = some none := by
  refine ⟨?_, ?_, ?_⟩ <;> decide

/-- Witness for the amended C5 on concrete inputs. -/
theorem c5_empty_segment_skipped_witness :
    ([[66]] ≠ ([] : List (List Nat))) ∧
    resolveLoop diskC6 9 ([[65]] ++ [] :: [[66]]) (fsInit bootC2)
      (entryAt diskC6 1536) =
    resolveLoop diskC6 9 ([[65]] ++ [[66]]) (fsInit bootC2)
      (entryAt diskC6 1536) :=
  ⟨by decide,
   c5_empty_segment_skipped diskC6 9 [[65]] [[66]] (fsInit bootC2)
     (entryAt diskC6 1536) (by decide)⟩

/-- C6: when the first path segment resolves to a root entry whose attribute
bitmask lacks the directory bit 0x10, and the path continues with at least
one more separator (any remainder B, so any further segments), resolution
returns the recoverable not-found result None and does not halt, even
though the segment's name matched the entry; and in general, whenever the
segment walk holds a resolved entry without the directory bit and at least
one segment remains (a non-terminal segment at any depth), it returns None
without halting. -/
theorem c6_nondir_segment_not_found (disk : Nat → Nat) (fuel : Nat)
    (fs fs1 : FS) (A B : List Nat) (e : DirectoryEntry)
    (hA : 47 ∉ A)
    (hroot : get_entry_from_root disk fs (parse_entry_name A) =
      (fs1, some e))
    (hnd : e.attributes &&& 16 = 0) :
    resOpt (get_entry_from_absolute_path disk fuel fs
      (47 :: (A ++ 47 :: B))) = some none ∧
    ∀ (seg2 : List Nat) (rest2 : List (List Nat)) (fs2 : FS)
      (e2 : DirectoryEntry), e2.attributes &&& 16 = 0 →
      resolveLoop disk fuel (seg2 :: rest2) fs2 e2 =
        PRes.ok (fs2, none) := by
  constructor
  · simp only [get_entry_from_absolute_path]
    rw [if_neg (by simp)]
    rw [splitSep_append 47 A B hA]
    simp only [hroot]
    obtain ⟨z, zs, hz⟩ : ∃ z zs, splitSep 47 B = z :: zs := by
      rcases h : splitSep 47 B with _ | ⟨z, zs⟩
      · exact absurd h (splitSep_ne_nil 47 B)
      · exact ⟨z, zs, rfl⟩
    rw [hz, resolveLoop_cons,
      if_pos (by simp [DirectoryEntry.is_directory, hnd])]
    rfl
  · intro seg2 rest2 fs2 e2 hnd2
    rw [resolveLoop_cons,
      if_pos (by simp [DirectoryEntry.is_directory, hnd2])]

/-- Witness for C6: "/A/B.TXT" on diskC6, where "A" exists as a file. -/
theorem c6_nondir_segment_not_found_witness :
    ((entryAt diskC6 1536).attributes &&& 16 = 0 ∧ 47 ∉ [65]) ∧
    resOpt (get_entry_from_absolute_path diskC6 9 (fsInit bootC2)
      (47 :: ([65] ++ 47 :: [66, 46, 84, 88, 84]))) = some none :=
  ⟨⟨by decide, by decide⟩,
   (c6_nondir_segment_not_found diskC6 9 (fsInit bootC2)
     (get_entry_from_root diskC6 (fsInit bootC2)
       (parse_entry_name [65])).1
     [65] [66, 46, 84, 88, 84] (entryAt diskC6 1536) (by decide)
     (Prod.ext rfl (by decide)) (by decide)).1⟩

/-- C9: a path that does not begin with the separator '/' makes
get_entry_from_absolute_path halt fatally (explicit panic), and the empty
path is already a fatal out-of-bounds access at path[0]; neither ever
returns the recoverable None result. -/
theorem c9_relative_or_empty_path_panics (disk : Nat → Nat) (fuel : Nat)
    (fs : FS) (path : List Nat)
    (h : path = [] ∨ path.head? ≠ some 47) :
    get_entry_from_absolute_path disk fuel fs path = PRes.panic := by
  cases path with
  | nil => rfl
  | cons p rest =>
    have hp : p ≠ 47 := by
      rcases h with h | h
      · exact absurd h (by simp)
      · simpa using h
    simp only [get_entry_from_absolute_path]
    rw [if_pos hp]

/-- Witness for C9 at the relative path "A/B" and at the empty path. -/
theorem c9_relative_or_empty_path_panics_witness :
    (([65, 47, 66] : List Nat).head? ≠ some 47) ∧
    get_entry_from_absolute_path diskZero 5 (fsInit bootC2) [65, 47, 66] =
      PRes.panic ∧
    get_entry_from_absolute_path diskZero 5 (fsInit bootC2) [] =
      PRes.panic :=
  ⟨by decide,
   c9_relative_or_empty_path_panics diskZero 5 (fsInit bootC2) [65, 47, 66]
     (Or.inr (by decide)),
   c9_relative_or_empty_path_panics diskZero 5 (fsInit bootC2) []
     (Or.inl rfl)⟩

/-- Boot sector with 1 sector per cluster, 1 reserved sector, one 1-sector
FAT, 16 root entries: cluster 2 is at lba 3, cluster 3 at lba 4. -/
def bootC4 : BootSector := ⟨1, 1, 1, 16, 1⟩

/-- The searched 11-byte name "TARGET     ". -/
def targetNameC4 : List Nat := [84, 65, 82, 71, 69, 84, 32, 32, 32, 32, 32]

/-- Disk for C4: the FAT chains cluster 2 -> 3 -> end; cluster 2 (lba 3,
bytes 1536-2047) holds directory entries 0-14 named with eleven bytes 65 and
entry 15 (bytes 2016-2047) named "TARGET     "; cluster 3 (lba 4) is all
zero, so entry 16 is the 0x00 terminator. -/
def diskC4 : Nat → Nat := fun a =>
  if a = 515 then 3
  else if a = 516 then 240
  else if a = 517 then 255
  else if 1536 ≤ a ∧ a < 2016 ∧ (a - 1536) % 32 < 11 then 65
  else if 2016 ≤ a ∧ a < 2027 then
    (if a = 2016 then 84 else if a = 2017 then 65 else if a = 2018 then 82
     else if a = 2019 then 71 else if a = 2020 then 69
     else if a = 2021 then 84 else 32)
  else 0

/-- Directory entry opening the diskC4 directory (first cluster 2). -/
def entryDirC4 : DirectoryEntry :=
  { entryZero with lower_first_cluster := 2, attributes := 16 }

/-- C4: get_entry_from_directory misses the entry at directory index 15.
On diskC4 the name "TARGET     " is the 16th entry (index 15), placed before
the first 0x00 terminator (index 16), yet the scan returns None: because
ENTRIES_PER_FILE_BUFFER is 512/32 - 1 = 15 while the buffer view holds 16
entries, index 15 is read from buffer slot 15 % 15 = 0 and slot 15 is never
inspected. -/
theorem c4_sixteenth_entry_missed :
    resOptD (get_entry_from_directory diskC4 40 (fsInit bootC4)
      (File.new entryDirC4) targetNameC4) = some none ∧
    (entryAt diskC4 2016).name = targetNameC4 ∧
    (entryAt diskC4 2048).name.head? = some 0 ∧
    FS.ENTRIES_PER_FILE_BUFFER = 15 := by
  refine ⟨?_, ?_, ?_, ?_⟩ <;> decide
